import Mathlib

/-!
# Verification of RIOT's recursive mutex (`core/rmutex.c`)

This file is a shallow embedding of the recursive-mutex implementation in
`core/rmutex.c` together with proofs of its specified properties.

The embedding works at the granularity of complete operations: each of
`rmutex_lock`, `rmutex_trylock` and `rmutex_unlock` is modelled as an atomic
transformation of the recursive-mutex state.  The underlying non-recursive
mutex is modelled as `Option Int`: `none` when free, `some t` when physically
held by the thread with identifier `t` (a `mutex_trylock` on the inner mutex
succeeds exactly when it is `none`).  Thread identifiers (`kernel_pid_t`) are
modelled as `Int`; in the C code they are `int16_t` values, but only equality
comparisons and the distinguished sentinel matter to the algorithm.

For `rmutex_unlock` we additionally give a fine-grained trace semantics listing
the individual loads/stores in program order, which lets us state intra-call
ordering properties (the owner field is cleared before the physical release,
and the fatal assertion path performs no store).
-/

namespace Rmutex

/-- Modelled from the spec: the distinguished "no thread" sentinel
(`KERNEL_PID_UNDEF` from `kernel_types.h`, which is not part of the sources at
hand); the spec only requires that it is a reserved value never returned as a
real thread identifier.  The concrete value is irrelevant to the algorithm. -/
def KERNEL_PID_UNDEF : Int := 0

/-- The recursive-mutex state (`rmutex_t`).  Modelled from the spec: the struct
declaration lives in `rmutex.h`, which is not among the sources at hand.  Per
the spec the state is the underlying non-recursive primitive `inner`/`mutex`,
the `owner` thread identifier (or the sentinel), and the recursion `depth`
(called `refcount` in the code), an unbounded recursion count.  The `mutex`
field records the thread physically holding the inner mutex (`none` = free). -/
structure rmutex_t where
  mutex : Option Int
  owner : Int
  refcount : Nat
deriving DecidableEq

/-- Modelled from the spec: the initial (unlocked) state, `depth = 0`,
`owner = NONE`, inner mutex free (`RMUTEX_INIT` in `rmutex.h`). -/
def RMUTEX_INIT : rmutex_t :=
  { mutex := none, owner := KERNEL_PID_UNDEF, refcount := 0 }

/-- Outcome of `rmutex_lock`: the call returns with the state updated, blocks
(suspends on the inner `mutex_lock` while another thread holds it), or hits
the fatal assertion `assert(rmutex->refcount > 0)`. -/
inductive LockOut where
  | ok (m : rmutex_t)
  | blocked
  | fatal (m : rmutex_t)
deriving DecidableEq

/-- Outcome of `rmutex_trylock`: the call returns the C `int` result (1 =
acquired, 0 = not acquired) with the resulting state, or hits the fatal
assertion `assert(rmutex->refcount > 0)`. -/
inductive TryOut where
  | ok (r : Nat) (m : rmutex_t)
  | fatal (m : rmutex_t)
deriving DecidableEq

/-- Outcome of `rmutex_unlock`: normal return with the resulting state, or a
fatal assertion failure (carrying the state at the moment of the abort). -/
inductive UnlockOut where
  | ok (m : rmutex_t)
  | fatal (m : rmutex_t)
deriving DecidableEq

/-- `rmutex_lock` from `core/rmutex.c`, executed by thread `pid`.
Control flow of the C function:
`mutex_trylock(&rmutex->mutex)` succeeds iff the inner mutex is free; on
failure the code loads `owner` once, blocks on `mutex_lock` if it differs from
`thread_getpid()`, and otherwise asserts `refcount > 0`.  All paths that reach
the tail store `owner = thread_getpid()` and do `refcount++`. -/
def rmutex_lock (pid : Int) (m : rmutex_t) : LockOut :=
  if m.mutex = none then
    .ok { mutex := some pid, owner := pid, refcount := m.refcount + 1 }
  else if m.owner ≠ pid then
    .blocked
  else if m.refcount > 0 then
    .ok { m with owner := pid, refcount := m.refcount + 1 }
  else
    .fatal m

/-- `rmutex_trylock` from `core/rmutex.c`, executed by thread `pid`.
Identical to `rmutex_lock` except the foreign-owner branch returns 0
immediately instead of blocking; all acquiring paths return 1. -/
def rmutex_trylock (pid : Int) (m : rmutex_t) : TryOut :=
  if m.mutex = none then
    .ok 1 { mutex := some pid, owner := pid, refcount := m.refcount + 1 }
  else if m.owner ≠ pid then
    .ok 0 m
  else if m.refcount > 0 then
    .ok 1 { m with owner := pid, refcount := m.refcount + 1 }
  else
    .fatal m

/-- `rmutex_unlock` from `core/rmutex.c`, executed by thread `pid`.
Asserts `owner == thread_getpid()` and `refcount > 0` (in that order), then
decrements `refcount`; if it reached zero, stores `KERNEL_PID_UNDEF` into
`owner` and releases the inner mutex. -/
def rmutex_unlock (pid : Int) (m : rmutex_t) : UnlockOut :=
  if m.owner ≠ pid then
    .fatal m
  else if m.refcount = 0 then
    .fatal m
  else if m.refcount - 1 = 0 then
    .ok { mutex := none, owner := KERNEL_PID_UNDEF, refcount := 0 }
  else
    .ok { m with refcount := m.refcount - 1 }

/-- Iterated `rmutex_lock` by the same thread; stops at the first outcome
that is not a normal return. -/
def lockN (pid : Int) : Nat → rmutex_t → LockOut
  | 0, m => .ok m
  | n + 1, m =>
    match rmutex_lock pid m with
    | .ok m' => lockN pid n m'
    | .blocked => .blocked
    | .fatal m' => .fatal m'

/-- Iterated `rmutex_unlock` by the same thread; stops at the first fatal
outcome. -/
def unlockN (pid : Int) : Nat → rmutex_t → UnlockOut
  | 0, m => .ok m
  | n + 1, m =>
    match rmutex_unlock pid m with
    | .ok m' => unlockN pid n m'
    | .fatal m' => .fatal m'

/-- The spec's invariants I1 and I2 at operation boundaries:
`depth > 0` implies the owner is a real thread identifier and that thread
physically holds the inner mutex; `depth == 0` implies the owner is the
sentinel and the inner mutex is free. -/
def Inv (m : rmutex_t) : Prop :=
  (0 < m.refcount → m.owner ≠ KERNEL_PID_UNDEF ∧ m.mutex = some m.owner) ∧
  (m.refcount = 0 → m.owner = KERNEL_PID_UNDEF ∧ m.mutex = none)

instance (m : rmutex_t) : Decidable (Inv m) := by
  unfold Inv; infer_instance

/-! ## Fine-grained trace semantics of `rmutex_unlock`

`rmutex_unlock` performs, in program order: an atomic load of `owner` for the
first assertion, a read of `refcount` for the second assertion, the store of
the decremented `refcount`, and — only when the count reached zero — the
atomic store of `KERNEL_PID_UNDEF` into `owner` followed by `mutex_unlock` on
the inner mutex.  `Ev` records these accesses; `rmutex_unlock_trace` lists the
events of one call in program order, cut short at a failing assertion. -/

/-- A single memory access or abort event inside `rmutex_unlock`. -/
inductive Ev where
  | loadOwner (v : Int)
  | loadRefcount (v : Nat)
  | storeRefcount (v : Nat)
  | storeOwner (v : Int)
  | releaseMutex
  | assertFail
deriving DecidableEq

/-- Does this event modify the `rmutex_t` state (a store to a field or the
release of the inner mutex)?  Loads and the abort itself do not. -/
def Ev.isStore : Ev → Bool
  | .storeRefcount _ => true
  | .storeOwner _ => true
  | .releaseMutex => true
  | _ => false

/-- Effect of one event on the state; loads and the abort leave it unchanged. -/
def applyEv (m : rmutex_t) : Ev → rmutex_t
  | .storeRefcount v => { m with refcount := v }
  | .storeOwner v => { m with owner := v }
  | .releaseMutex => { m with mutex := none }
  | _ => m

/-- The state after executing a list of events. -/
def runTrace (m : rmutex_t) (es : List Ev) : rmutex_t :=
  es.foldl applyEv m

/-- All states visited while executing a list of events, the entry and final
states included. -/
def statesAlong (m : rmutex_t) : List Ev → List rmutex_t
  | [] => [m]
  | e :: es => m :: statesAlong (applyEv m e) es

/-- The events of one `rmutex_unlock(rmutex)` call by thread `pid` on state
`m`, in program order, following `core/rmutex.c`:
`assert(atomic_load_explicit(&rmutex->owner, ...) == thread_getpid())`,
`assert(rmutex->refcount > 0)`, `rmutex->refcount--`, and if the count is now
zero, `atomic_store_explicit(&rmutex->owner, KERNEL_PID_UNDEF, ...)` then
`mutex_unlock(&rmutex->mutex)`. -/
def rmutex_unlock_trace (pid : Int) (m : rmutex_t) : List Ev :=
  if m.owner ≠ pid then
    [.loadOwner m.owner, .assertFail]
  else if m.refcount = 0 then
    [.loadOwner m.owner, .loadRefcount m.refcount, .assertFail]
  else if m.refcount - 1 = 0 then
    [.loadOwner m.owner, .loadRefcount m.refcount, .storeRefcount (m.refcount - 1),
      .storeOwner KERNEL_PID_UNDEF, .releaseMutex]
  else
    [.loadOwner m.owner, .loadRefcount m.refcount, .storeRefcount (m.refcount - 1)]

/-! ## Width-parametric refcount increment

In the C sources the two acquisition paths end in the bare statement
`rmutex->refcount++` with no bound check.  The declared width of the
`refcount` field is in `rmutex.h`, which is not among the sources at hand, so
the wrap-around semantics of the C unsigned increment is modelled
parametrically in a width `w`: an increment of a `w`-bit unsigned value is
addition modulo `2 ^ w`. -/

/-- C unsigned increment of a `w`-bit field: `(r + 1) % 2 ^ w`. -/
def wrapInc (w r : Nat) : Nat := (r + 1) % 2 ^ w

/-- `rmutex_lock` with the tail increment performed on a `w`-bit `refcount`
field; otherwise identical to `rmutex_lock`. -/
def rmutex_lockW (w : Nat) (pid : Int) (m : rmutex_t) : LockOut :=
  if m.mutex = none then
    .ok { mutex := some pid, owner := pid, refcount := wrapInc w m.refcount }
  else if m.owner ≠ pid then
    .blocked
  else if m.refcount > 0 then
    .ok { m with owner := pid, refcount := wrapInc w m.refcount }
  else
    .fatal m

/-- `rmutex_trylock` with the tail increment performed on a `w`-bit `refcount`
field; otherwise identical to `rmutex_trylock`. -/
def rmutex_trylockW (w : Nat) (pid : Int) (m : rmutex_t) : TryOut :=
  if m.mutex = none then
    .ok 1 { mutex := some pid, owner := pid, refcount := wrapInc w m.refcount }
  else if m.owner ≠ pid then
    .ok 0 m
  else if m.refcount > 0 then
    .ok 1 { m with owner := pid, refcount := wrapInc w m.refcount }
  else
    .fatal m

/-! ## Helper lemmas -/

/-- Under the invariant, a held recursive mutex has the shape
`⟨some owner, owner, refcount⟩`: the owner physically holds the inner mutex. -/
lemma held_shape (m : rmutex_t) (hInv : Inv m) (hd : 0 < m.refcount) :
    m = { mutex := some m.owner, owner := m.owner, refcount := m.refcount } := by
  obtain ⟨mu, ow, rc⟩ := m
  have h := (hInv.1 hd).2
  simp only at h ⊢
  simpa using h

/-- Iterated `rmutex_lock` by the thread already recorded as owner only adds
to the recursion count; the inner mutex field is never touched. -/
lemma lockN_from_held (pid q : Int) (n : Nat) : ∀ c : Nat, 0 < c →
    lockN pid n { mutex := some q, owner := pid, refcount := c } =
      .ok { mutex := some q, owner := pid, refcount := c + n } := by
  induction n with
  | zero => intro c _; simp [lockN]
  | succ n ih =>
    intro c hc
    have h1 : rmutex_lock pid { mutex := some q, owner := pid, refcount := c } =
        .ok { mutex := some q, owner := pid, refcount := c + 1 } := by
      unfold rmutex_lock
      simp [hc]
    calc lockN pid (n + 1) { mutex := some q, owner := pid, refcount := c }
        = lockN pid n { mutex := some q, owner := pid, refcount := c + 1 } := by
          simp only [lockN]; rw [h1]
      _ = .ok { mutex := some q, owner := pid, refcount := c + 1 + n } := ih (c + 1) (by omega)
      _ = .ok { mutex := some q, owner := pid, refcount := c + (n + 1) } := by
          rw [Nat.add_assoc, Nat.add_comm 1 n]

/-- Unwinding all `n + 1` recursion levels by the owner returns the lock to
the initial free state. -/
lemma unlockN_to_free (pid q : Int) (n : Nat) :
    unlockN pid (n + 1) { mutex := some q, owner := pid, refcount := n + 1 } =
      .ok RMUTEX_INIT := by
  induction n with
  | zero =>
    have h1 : rmutex_unlock pid { mutex := some q, owner := pid, refcount := 1 } =
        .ok RMUTEX_INIT := by
      unfold rmutex_unlock RMUTEX_INIT
      simp
    simp only [unlockN]
    rw [h1]
  | succ n ih =>
    have h1 : rmutex_unlock pid { mutex := some q, owner := pid, refcount := n + 2 } =
        .ok { mutex := some q, owner := pid, refcount := n + 1 } := by
      unfold rmutex_unlock
      simp
    simp only [unlockN]
    rw [h1]
    exact ih

/-! ## Claim theorems -/

/-- Claim C3: the invariants I1/I2 hold in the initial state and are preserved
by every complete, normally returning execution of `rmutex_lock`,
`rmutex_trylock` and `rmutex_unlock` by a real thread (`pid` not the
sentinel): `depth > 0` implies the owner is a real thread identifier holding
the inner mutex, and `depth == 0` implies the owner is the sentinel. -/
theorem inv_init_and_preserved :
    Inv RMUTEX_INIT ∧
    (∀ (pid : Int) (m m' : rmutex_t), pid ≠ KERNEL_PID_UNDEF → Inv m →
      rmutex_lock pid m = .ok m' → Inv m') ∧
    (∀ (pid : Int) (m : rmutex_t) (r : Nat) (m' : rmutex_t), pid ≠ KERNEL_PID_UNDEF → Inv m →
      rmutex_trylock pid m = .ok r m' → Inv m') ∧
    (∀ (pid : Int) (m m' : rmutex_t), pid ≠ KERNEL_PID_UNDEF → Inv m →
      rmutex_unlock pid m = .ok m' → Inv m') := by
  refine ⟨by decide, ?_, ?_, ?_⟩
  · intro pid m m' hpid hInv h
    obtain ⟨mu, ow, rc⟩ := m
    unfold rmutex_lock at h
    split_ifs at h with h1 h2 h3
    · cases h
      exact ⟨fun _ => ⟨hpid, rfl⟩, by simp⟩
    · cases h
      push_neg at h2
      have hmu := (hInv.1 h3).2
      simp only at h2 h3 hmu
      cases h2
      exact ⟨fun _ => ⟨hpid, by simp [hmu]⟩, by simp⟩
  · intro pid m r m' hpid hInv h
    obtain ⟨mu, ow, rc⟩ := m
    unfold rmutex_trylock at h
    split_ifs at h with h1 h2 h3
    · cases h
      exact ⟨fun _ => ⟨hpid, rfl⟩, by simp⟩
    · cases h
      exact hInv
    · cases h
      push_neg at h2
      have hmu := (hInv.1 h3).2
      simp only at h2 h3 hmu
      cases h2
      exact ⟨fun _ => ⟨hpid, by simp [hmu]⟩, by simp⟩
  · intro pid m m' hpid hInv h
    obtain ⟨mu, ow, rc⟩ := m
    unfold rmutex_unlock at h
    split_ifs at h with h1 h2 h3
    · cases h
      exact ⟨by simp, by simp [KERNEL_PID_UNDEF]⟩
    · cases h
      push_neg at h1
      have hrc : 0 < rc := by simp only at h2; omega
      have hmu := (hInv.1 hrc).2
      have how := (hInv.1 hrc).1
      simp only at h1 h3 hmu how ⊢
      cases h1
      refine ⟨fun _ => ⟨how, hmu⟩, fun hz => absurd hz h3⟩

/-- Claim C1: mutual exclusion across threads.  Whenever thread `t1` holds the
recursive mutex at depth ≥ 1 (in any state satisfying the invariant), a
`rmutex_trylock` by a distinct thread `t2` returns 0 and leaves the state
unchanged, a `rmutex_lock` by `t2` blocks (does not return), and a
`rmutex_unlock` by `t2` aborts — so `t2` can never also hold the lock before
`t1`'s matching full release.  (Proved in the interleaving model in which each
complete call is atomic.) -/
theorem mutual_exclusion (t1 t2 : Int) (m : rmutex_t) (hInv : Inv m)
    (howner : m.owner = t1) (hdepth : 1 ≤ m.refcount) (hne : t2 ≠ t1) :
    rmutex_trylock t2 m = .ok 0 m ∧ rmutex_lock t2 m = .blocked ∧
      rmutex_unlock t2 m = .fatal m := by
  have hmu : m.mutex = some m.owner := (hInv.1 hdepth).2
  have h2 : m.owner ≠ t2 := by
    rw [howner]
    exact fun hh => hne hh.symm
  refine ⟨?_, ?_, ?_⟩
  · unfold rmutex_trylock
    simp [hmu, h2]
  · unfold rmutex_lock
    simp [hmu, h2]
  · unfold rmutex_unlock
    simp [h2]

theorem mutual_exclusion_witness :
    Inv { mutex := some 1, owner := 1, refcount := 1 } ∧
    rmutex_trylock 2 { mutex := some 1, owner := 1, refcount := 1 } =
      .ok 0 { mutex := some 1, owner := 1, refcount := 1 } ∧
    rmutex_lock 2 { mutex := some 1, owner := 1, refcount := 1 } = .blocked ∧
    rmutex_unlock 2 { mutex := some 1, owner := 1, refcount := 1 } =
      .fatal { mutex := some 1, owner := 1, refcount := 1 } :=
  ⟨by decide,
    mutual_exclusion 1 2 { mutex := some 1, owner := 1, refcount := 1 }
      (by decide) rfl (by decide) (by decide)⟩

/-- Claim C2: recursive acquisition by the owner never blocks and never
touches the inner mutex.  If the caller is already the recorded owner at
depth ≥ 1, `rmutex_lock` returns normally with the depth incremented and the
inner mutex field unchanged, and any number `N` of successive `rmutex_lock`
calls by the owner all return normally (no call blocks). -/
theorem lock_recursive_no_block (pid : Int) (m : rmutex_t) (hInv : Inv m)
    (howner : m.owner = pid) (hdepth : 1 ≤ m.refcount) :
    rmutex_lock pid m = .ok { mutex := m.mutex, owner := pid, refcount := m.refcount + 1 } ∧
    ∀ N : Nat, lockN pid N m =
      .ok { mutex := m.mutex, owner := pid, refcount := m.refcount + N } := by
  obtain ⟨mu, ow, rc⟩ := m
  simp only at howner hdepth ⊢
  cases howner
  have hmu : mu = some pid := by
    have h := (hInv.1 hdepth).2
    simpa using h
  cases hmu
  constructor
  · unfold rmutex_lock
    simp [show rc > 0 from hdepth]
  · intro N
    exact lockN_from_held pid pid N rc (by omega)

theorem lock_recursive_no_block_witness :
    Inv { mutex := some 1, owner := 1, refcount := 1 } ∧
    rmutex_lock 1 { mutex := some 1, owner := 1, refcount := 1 } =
      .ok { mutex := some 1, owner := 1, refcount := 2 } ∧
    lockN 1 3 { mutex := some 1, owner := 1, refcount := 1 } =
      .ok { mutex := some 1, owner := 1, refcount := 4 } :=
  ⟨by decide,
    (lock_recursive_no_block 1 { mutex := some 1, owner := 1, refcount := 1 }
      (by decide) rfl (by decide)).1,
    (lock_recursive_no_block 1 { mutex := some 1, owner := 1, refcount := 1 }
      (by decide) rfl (by decide)).2 3⟩

theorem inv_init_and_preserved_witness :
    Inv { mutex := some 1, owner := 1, refcount := 1 } ∧
    Inv { mutex := some 1, owner := 1, refcount := 2 } ∧
    Inv RMUTEX_INIT :=
  ⟨inv_init_and_preserved.2.1 1 RMUTEX_INIT
      { mutex := some 1, owner := 1, refcount := 1 } (by decide) (by decide) (by decide),
    inv_init_and_preserved.2.2.1 1 { mutex := some 1, owner := 1, refcount := 1 } 1
      { mutex := some 1, owner := 1, refcount := 2 } (by decide) (by decide) (by decide),
    inv_init_and_preserved.2.2.2 1 { mutex := some 1, owner := 1, refcount := 1 }
      RMUTEX_INIT (by decide) (by decide) (by decide)⟩

/-- Claim C5: `rmutex_trylock` by a thread that is not the current owner while
the lock is held at depth ≥ 1 returns 0 and leaves the state — in particular
`owner` and `refcount` — unchanged; it takes the early-return branch and never
performs a blocking acquire of the inner mutex. -/
theorem trylock_foreign_busy (pid : Int) (m : rmutex_t) (hInv : Inv m)
    (hdepth : 1 ≤ m.refcount) (hne : m.owner ≠ pid) :
    rmutex_trylock pid m = .ok 0 m := by
  have hmu : m.mutex = some m.owner := (hInv.1 hdepth).2
  unfold rmutex_trylock
  simp [hmu, hne]

theorem trylock_foreign_busy_witness :
    Inv { mutex := some 1, owner := 1, refcount := 2 } ∧
    rmutex_trylock 2 { mutex := some 1, owner := 1, refcount := 2 } =
      .ok 0 { mutex := some 1, owner := 1, refcount := 2 } :=
  ⟨by decide,
    trylock_foreign_busy 2 { mutex := some 1, owner := 1, refcount := 2 }
      (by decide) (by decide) (by decide)⟩

/-- Claim C7: round-trip idempotence.  For every `N ≥ 1` and every thread,
`N` successive `rmutex_lock` calls starting from the initial state all return
normally and reach depth `N`, and the `N` matching `rmutex_unlock` calls
return the lock to a state equal to the initial one (depth 0, owner sentinel,
inner mutex free). -/
theorem lock_unlock_roundtrip (pid : Int) (N : Nat) (hN : 1 ≤ N) :
    lockN pid N RMUTEX_INIT = .ok { mutex := some pid, owner := pid, refcount := N } ∧
    unlockN pid N { mutex := some pid, owner := pid, refcount := N } = .ok RMUTEX_INIT := by
  obtain ⟨n, rfl⟩ : ∃ n, N = n + 1 := ⟨N - 1, by omega⟩
  constructor
  · have h1 : rmutex_lock pid RMUTEX_INIT = .ok { mutex := some pid, owner := pid, refcount := 1 } := by
      unfold rmutex_lock RMUTEX_INIT
      simp
    calc lockN pid (n + 1) RMUTEX_INIT
        = lockN pid n { mutex := some pid, owner := pid, refcount := 1 } := by
          simp only [lockN]; rw [h1]
      _ = .ok { mutex := some pid, owner := pid, refcount := 1 + n } :=
          lockN_from_held pid pid n 1 (by omega)
      _ = .ok { mutex := some pid, owner := pid, refcount := n + 1 } := by
          rw [Nat.add_comm]
  · exact unlockN_to_free pid pid n

theorem lock_unlock_roundtrip_witness :
    1 ≤ 2 ∧
    lockN 1 2 RMUTEX_INIT = .ok { mutex := some 1, owner := 1, refcount := 2 } ∧
    unlockN 1 2 { mutex := some 1, owner := 1, refcount := 2 } = .ok RMUTEX_INIT :=
  ⟨by decide, (lock_unlock_roundtrip 1 2 (by decide)).1, (lock_unlock_roundtrip 1 2 (by decide)).2⟩

/-- Claim C8: releasing one nesting level.  If the owner calls `rmutex_unlock`
at depth `n > 1`, the call only decrements the depth to `n - 1`: the owner
field still records the caller, the inner mutex stays held by the caller, and
no release of the inner mutex is performed. -/
theorem unlock_nested_decrement (pid : Int) (m : rmutex_t) (n : Nat) (hInv : Inv m)
    (howner : m.owner = pid) (hc : m.refcount = n) (hn : 1 < n) :
    rmutex_unlock pid m = .ok { mutex := some pid, owner := pid, refcount := n - 1 } := by
  obtain ⟨mu, ow, rc⟩ := m
  simp only at howner hc
  cases howner
  cases hc
  have hmu : mu = some pid := by
    have h := (hInv.1 (show 0 < n by omega)).2
    simpa using h
  cases hmu
  unfold rmutex_unlock
  have h2 : ¬(n = 0) := by omega
  have h3 : ¬(n - 1 = 0) := by omega
  simp [h2, h3]

theorem unlock_nested_decrement_witness :
    Inv { mutex := some 1, owner := 1, refcount := 2 } ∧
    rmutex_unlock 1 { mutex := some 1, owner := 1, refcount := 2 } =
      .ok { mutex := some 1, owner := 1, refcount := 1 } :=
  ⟨by decide,
    unlock_nested_decrement 1 { mutex := some 1, owner := 1, refcount := 2 } 2
      (by decide) rfl rfl (by decide)⟩

/-- Claim C6: fatal misuse detection.  `rmutex_unlock` called on a free lock
(depth 0) or by a thread differing from the recorded owner takes the fatal
assertion path (process abort) and never returns normally; there is no
recoverable error return. -/
theorem unlock_misuse_fatal (pid : Int) (m : rmutex_t)
    (h : m.refcount = 0 ∨ m.owner ≠ pid) :
    rmutex_unlock pid m = .fatal m ∧ ∀ m', rmutex_unlock pid m ≠ .ok m' := by
  have hf : rmutex_unlock pid m = .fatal m := by
    unfold rmutex_unlock
    split_ifs with h1 h2 h3
    · rfl
    · rfl
    · push_neg at h1
      rcases h with h | h
      · exact absurd h h2
      · exact absurd h1 h
    · push_neg at h1
      rcases h with h | h
      · exact absurd h h2
      · exact absurd h1 h
  refine ⟨hf, fun m' hc => ?_⟩
  rw [hf] at hc
  exact UnlockOut.noConfusion hc

theorem unlock_misuse_fatal_witness :
    (RMUTEX_INIT.refcount = 0 ∨ RMUTEX_INIT.owner ≠ 1) ∧
    rmutex_unlock 1 RMUTEX_INIT = .fatal RMUTEX_INIT ∧
    rmutex_unlock 1 RMUTEX_INIT ≠ .ok RMUTEX_INIT :=
  ⟨by decide,
    (unlock_misuse_fatal 1 RMUTEX_INIT (by decide)).1,
    (unlock_misuse_fatal 1 RMUTEX_INIT (by decide)).2 RMUTEX_INIT⟩

/-- Claim C9: the fatal path of `rmutex_unlock` is atomic.  When the
precondition is violated (caller is not the recorded owner, or depth is
zero), the call's event trace contains no store and no inner-mutex release —
both assertions execute before any field is modified — so the state at the
moment of the abort (the trace's last event) equals the entry state. -/
theorem unlock_fatal_state_unchanged (pid : Int) (m : rmutex_t)
    (h : m.owner ≠ pid ∨ m.refcount = 0) :
    (∀ e ∈ rmutex_unlock_trace pid m, e.isStore = false) ∧
    runTrace m (rmutex_unlock_trace pid m) = m ∧
    (rmutex_unlock_trace pid m).getLast? = some .assertFail := by
  have htr : rmutex_unlock_trace pid m = [.loadOwner m.owner, .assertFail] ∨
      rmutex_unlock_trace pid m =
        [.loadOwner m.owner, .loadRefcount m.refcount, .assertFail] := by
    unfold rmutex_unlock_trace
    by_cases h1 : m.owner ≠ pid
    · left; rw [if_pos h1]
    · right
      rcases h with h | h
      · exact absurd h h1
      · rw [if_neg h1, if_pos h]
  rcases htr with htr | htr <;> rw [htr]
  · refine ⟨?_, rfl, rfl⟩
    intro e he
    simp only [List.mem_cons, List.not_mem_nil, or_false] at he
    rcases he with rfl | rfl <;> rfl
  · refine ⟨?_, rfl, rfl⟩
    intro e he
    simp only [List.mem_cons, List.not_mem_nil, or_false] at he
    rcases he with rfl | rfl | rfl <;> rfl

theorem unlock_fatal_state_unchanged_witness :
    ((2 : Int) ≠ 1 ∨ (1 : Nat) = 0) ∧
    runTrace { mutex := some 2, owner := 2, refcount := 1 }
      (rmutex_unlock_trace 1 { mutex := some 2, owner := 2, refcount := 1 }) =
      { mutex := some 2, owner := 2, refcount := 1 } ∧
    (rmutex_unlock_trace 1 { mutex := some 2, owner := 2, refcount := 1 }).getLast? =
      some .assertFail :=
  ⟨by decide,
    (unlock_fatal_state_unchanged 1 { mutex := some 2, owner := 2, refcount := 1 }
      (Or.inl (by decide))).2.1,
    (unlock_fatal_state_unchanged 1 { mutex := some 2, owner := 2, refcount := 1 }
      (Or.inl (by decide))).2.2⟩

/-- Claim C4: on a full release (`rmutex_unlock` when the decrement brings the
depth to zero), the store of the sentinel into `owner` occurs strictly before
the release of the inner mutex in the call's event trace; consequently every
state along the trace in which the inner mutex is free has `owner` equal to
the sentinel, so a thread acquiring the inner mutex right after the release
never observes a stale owner. -/
theorem owner_cleared_before_release (pid : Int) (m : rmutex_t)
    (howner : m.owner = pid) (hone : m.refcount = 1) (hmu : m.mutex = some pid) :
    rmutex_unlock_trace pid m =
      [.loadOwner pid, .loadRefcount 1, .storeRefcount 0, .storeOwner KERNEL_PID_UNDEF,
        .releaseMutex] ∧
    (∀ j, (rmutex_unlock_trace pid m).get? j = some .releaseMutex →
      ∃ i, i < j ∧ (rmutex_unlock_trace pid m).get? i = some (.storeOwner KERNEL_PID_UNDEF)) ∧
    (∀ m' ∈ statesAlong m (rmutex_unlock_trace pid m), m'.mutex = none →
      m'.owner = KERNEL_PID_UNDEF) := by
  obtain ⟨mu, ow, rc⟩ := m
  simp only at howner hone hmu
  cases howner
  cases hone
  cases hmu
  have htr : rmutex_unlock_trace pid { mutex := some pid, owner := pid, refcount := 1 } =
      [.loadOwner pid, .loadRefcount 1, .storeRefcount 0, .storeOwner KERNEL_PID_UNDEF,
        .releaseMutex] := by
    unfold rmutex_unlock_trace
    simp
  refine ⟨htr, ?_, ?_⟩
  · rw [htr]
    intro j hj
    match j, hj with
    | 4, _ => exact ⟨3, by omega, rfl⟩
  · rw [htr]
    intro m' hm' hnone
    simp only [statesAlong, applyEv, List.mem_cons, List.not_mem_nil, or_false] at hm'
    rcases hm' with rfl | rfl | rfl | rfl | rfl | rfl <;> simp_all

theorem owner_cleared_before_release_witness :
    rmutex_unlock_trace 1 { mutex := some 1, owner := 1, refcount := 1 } =
      [.loadOwner 1, .loadRefcount 1, .storeRefcount 0, .storeOwner KERNEL_PID_UNDEF,
        .releaseMutex] ∧
    (∃ i, i < 4 ∧ (rmutex_unlock_trace 1 { mutex := some 1, owner := 1, refcount := 1 }).get? i =
      some (.storeOwner KERNEL_PID_UNDEF)) ∧
    ({ mutex := none, owner := KERNEL_PID_UNDEF, refcount := 0 } : rmutex_t).owner =
      KERNEL_PID_UNDEF :=
  ⟨(owner_cleared_before_release 1 { mutex := some 1, owner := 1, refcount := 1 }
      rfl rfl rfl).1,
    (owner_cleared_before_release 1 { mutex := some 1, owner := 1, refcount := 1 }
      rfl rfl rfl).2.1 4 (by decide),
    (owner_cleared_before_release 1 { mutex := some 1, owner := 1, refcount := 1 }
      rfl rfl rfl).2.2 { mutex := none, owner := KERNEL_PID_UNDEF, refcount := 0 }
      (by decide) (by decide)⟩

/-- Claim C10: the tail increment of the acquisition paths is unguarded.  In
the width-parametric model (`refcount` a `w`-bit C unsigned field), whenever
the calling thread already owns the lock, `rmutex_lockW` and a successful
`rmutex_trylockW` set the count to `(refcount + 1) % 2 ^ w` with no upper
bound check: the count grows by exactly 1 while below the maximum and wraps
to 0 when the maximum value is exceeded. -/
theorem refcount_increment_unguarded (w : Nat) (pid : Int) (m : rmutex_t)
    (hmu : m.mutex = some pid) (howner : m.owner = pid) (hdepth : 0 < m.refcount) :
    rmutex_lockW w pid m = .ok { m with owner := pid, refcount := wrapInc w m.refcount } ∧
    rmutex_trylockW w pid m = .ok 1 { m with owner := pid, refcount := wrapInc w m.refcount } ∧
    (m.refcount + 1 < 2 ^ w → wrapInc w m.refcount = m.refcount + 1) ∧
    (m.refcount + 1 = 2 ^ w → wrapInc w m.refcount = 0) := by
  refine ⟨?_, ?_, ?_, ?_⟩
  · unfold rmutex_lockW
    simp [hmu, howner, hdepth]
  · unfold rmutex_trylockW
    simp [hmu, howner, hdepth]
  · intro hlt
    exact Nat.mod_eq_of_lt hlt
  · intro heq
    unfold wrapInc
    rw [heq]
    exact Nat.mod_self _

theorem refcount_increment_unguarded_witness :
    0 < ({ mutex := some 1, owner := 1, refcount := 15 } : rmutex_t).refcount ∧
    rmutex_lockW 4 1 { mutex := some 1, owner := 1, refcount := 15 } =
      .ok { mutex := some 1, owner := 1, refcount := 0 } ∧
    wrapInc 4 15 = 0 :=
  ⟨by decide,
    (refcount_increment_unguarded 4 1 { mutex := some 1, owner := 1, refcount := 15 }
      rfl rfl (by decide)).1,
    (refcount_increment_unguarded 4 1 { mutex := some 1, owner := 1, refcount := 15 }
      rfl rfl (by decide)).2.2.2 (by decide)⟩

end Rmutex

namespace Rmutex

example : rmutex_lock 1 RMUTEX_INIT = .ok { mutex := some 1, owner := 1, refcount := 1 } := by
  decide

example : rmutex_trylock 2 { mutex := some 1, owner := 1, refcount := 1 } =
    .ok 0 { mutex := some 1, owner := 1, refcount := 1 } := by
  decide

example : rmutex_unlock 1 { mutex := some 1, owner := 1, refcount := 2 } =
    .ok { mutex := some 1, owner := 1, refcount := 1 } := by
  decide

example : rmutex_unlock 2 { mutex := some 1, owner := 1, refcount := 2 } =
    .fatal { mutex := some 1, owner := 1, refcount := 2 } := by
  decide

example : lockN 1 3 RMUTEX_INIT = .ok { mutex := some 1, owner := 1, refcount := 3 } := by
  decide

example : unlockN 1 3 { mutex := some 1, owner := 1, refcount := 3 } = .ok RMUTEX_INIT := by
  decide

example : Inv RMUTEX_INIT := by decide

end Rmutex
